import Mathlib

/-!
Verification development for the defect-generation module (doped/generation.py)
of the DOPE repository, together with the chemical-potential interpolation of
its Fermi-solver companion module (exercised by tests/test_fermisolver.py).

Shallow embedding conventions:
  * a pymatgen Structure is modelled as its ordered list of sites; each site
    carries a single species symbol and fractional coordinates (List of
    rationals);
  * Python dicts (insertion-ordered) are modelled as association lists with
    dict semantics: insertion updates an existing key in place, otherwise
    appends; deletion removes the binding of the key; lookup finds the first
    binding;
  * machine-external collaborators (pymatgen symmetry reduction, the four
    defect enumerators, get_sc_fromstruct, Defect.get_supercell_structure)
    are passed into the embedded pipeline as function parameters, since the
    repository consumes rather than implements them;
  * Python code that raises is embedded as Option / error-pair returning
    functions.
-/

/-- One site of a periodic structure: a single species symbol and fractional
coordinates. -/
structure Site where
  species : String
  frac_coords : List ℚ
deriving DecidableEq, Repr

/-- A pymatgen Structure, modelled as its ordered list of sites. -/
abbrev PMGStructure := List Site

/-- A 3x3 integer supercell transformation matrix, modelled as rows of
integers. -/
abbrev SCMatrix := List (List Int)

/-- The pymatgen DefectType enumeration. -/
inductive DefectType where
  | Vacancy
  | Substitution
  | Interstitial
  | Other
deriving DecidableEq, Repr

/-- A pymatgen Defect, as consumed by generation.py: the host (primitive)
structure it is defined in, its kind, formal oxidation state, the defect
site fractional coordinates, its multiplicity, and the base name that the
external naming helper (shakenbreak _get_defect_name_from_obj) computes for
it.  The supercell-structure method of the external Defect class is passed
separately as a function parameter. -/
structure Defect where
  structure' : PMGStructure
  defect_type : DefectType
  oxi_state : Int
  site : List ℚ
  multiplicity : Nat
  snb_name : String
deriving DecidableEq, Repr

/-- A pymatgen ComputedStructureEntry: a structure plus an energy. -/
structure ComputedStructureEntry where
  structure' : PMGStructure
  energy : ℚ
deriving DecidableEq, Repr

/-- A pymatgen DefectEntry as used by generation.py: defect, charge state,
supercell entry, supercell fractional coordinates of the defect, and the
name attribute that generation.py assigns post hoc (empty until assigned). -/
structure DefectEntry where
  defect : Defect
  charge_state : Int
  sc_entry : ComputedStructureEntry
  sc_defect_frac_coords : List ℚ
  name : String
deriving DecidableEq, Repr

/-! Association lists with Python-dict semantics. -/

/-- Lookup of a key in an insertion-ordered dict. -/
def dictGet {α : Type} (k : String) : List (String × α) → Option α
  | [] => none
  | (k', v) :: rest => if k' = k then some v else dictGet k rest

/-- Assignment d[k] = v in an insertion-ordered dict: updates the existing
binding in place, otherwise appends the new binding at the end. -/
def dictInsert {α : Type} (k : String) (v : α) : List (String × α) → List (String × α)
  | [] => [(k, v)]
  | (k', v') :: rest =>
      if k' = k then (k, v) :: rest else (k', v') :: dictInsert k v rest

/-- Deletion del d[k] in an insertion-ordered dict: removes the binding of
the key (the first one; dicts hold at most one). -/
def dictErase {α : Type} (k : String) : List (String × α) → List (String × α)
  | [] => []
  | (k', v') :: rest =>
      if k' = k then rest else (k', v') :: dictErase k rest

/-- Keys of a dict, in order. -/
def dictKeys {α : Type} (d : List (String × α)) : List String :=
  d.map Prod.fst

/-! String helpers used by the naming code.  All are written by structural
recursion over the character list of the string, so that concrete runs of
the pipeline reduce inside the kernel. -/

/-- Decimal digits of a natural number, most significant first (fuel-based
structural recursion; fuel n + 1 always suffices). -/
def natDigitsAux : Nat → Nat → List Char → List Char
  | 0, _, acc => acc
  | fuel + 1, n, acc =>
      let d := Char.ofNat (Char.toNat '0' + n % 10)
      if n < 10 then d :: acc else natDigitsAux fuel (n / 10) (d :: acc)

/-- Decimal rendering of a natural number. -/
def natToStr (n : Nat) : String :=
  String.mk (natDigitsAux (n + 1) n [])

/-- Decimal rendering of an integer, with a minus sign when negative (the
rendering Python str uses for int). -/
def intToStr : Int → String
  | Int.ofNat n => natToStr n
  | Int.negSucc n => "-" ++ natToStr (n + 1)

/-- Rendering of a charge in an entry name: an explicit plus sign for
positive charges, none otherwise, as in the f-string of generation.py. -/
def chargeSuffix (c : Int) : String :=
  (if 0 < c then "+" else "") ++ intToStr c

/-- Characters after the last underscore of a character list. -/
def lastSegAux : List Char → List Char → List Char
  | [], cur => cur
  | c :: cs, cur => if c = '_' then lastSegAux cs [] else lastSegAux cs (cur ++ [c])

/-- The substring after the last underscore, as computed by
name.rsplit with separator underscore and maxsplit 1, index -1 (for a
string with no underscore this is the whole string, as in Python). -/
def lastSegment (s : String) : String :=
  String.mk (lastSegAux s.data [])

/-- Value of a list of decimal digit characters. -/
def digitsToNatAux : List Char → Nat → Nat
  | [], acc => acc
  | c :: cs, acc => digitsToNatAux cs (acc * 10 + (Char.toNat c - Char.toNat '0'))

/-- Python int() on the charge substrings produced by chargeSuffix: an
optional leading plus or minus sign followed by decimal digits (the only
shapes the renaming loop ever parses). -/
def parseIntStr (s : String) : Int :=
  match s.data with
  | '-' :: rest => - (Int.ofNat (digitsToNatAux rest 0))
  | '+' :: rest => Int.ofNat (digitsToNatAux rest 0)
  | ds => Int.ofNat (digitsToNatAux ds 0)

/-- Python str.startswith, by character-list comparison. -/
def strStartsWith (s pre : String) : Bool :=
  pre.data.isPrefixOf s.data

/-- Python str.endswith, by character-list comparison. -/
def strEndsWith (s suf : String) : Bool :=
  suf.data.isSuffixOf s.data

/-- Removal of the last n characters of a string (Python slice s[:-n]). -/
def strDropRight (s : String) (n : Nat) : String :=
  String.mk (s.data.take (s.data.length - n))

/-- Python range(a, b) over integers. -/
def pyRange (a b : Int) : List Int :=
  (List.range (b - a).toNat).map (fun (i : Nat) => a + (i : Int))

/-- Charge states assigned to a defect in DefectsGenerator.__init__
(generation.py lines 308-318): range(-1, oxi+1) for positive oxidation
state, range(oxi, 2) for negative, and [-1, 0, 1] for zero. -/
def chargeStates (oxi : Int) : List Int :=
  if 0 < oxi then pyRange (-1) (oxi + 1)
  else if oxi < 0 then pyRange oxi 2
  else [-1, 0, 1]

/-! The defect-entry assembler (generation.py lines 39-71). -/

/-- Sites of a structure whose species symbol matches the dummy species
symbol, in order (the list comprehension of get_defect_entry_from_defect). -/
def dummySites (s : PMGStructure) (dummy_species : String) : List Site :=
  s.filter (fun site => site.species = dummy_species)

/-- Embedding of get_defect_entry_from_defect (generation.py lines 39-71):
copies the supplied supercell, locates the first dummy-species site
(raising, i.e. none, when there is no such site, as the [0] indexing does),
records its fractional coordinates, removes that site from the copy, and
wraps the remainder with placeholder energy 0.0 into a DefectEntry.  The
name attribute is not set here (it is assigned post hoc by the caller). -/
def get_defect_entry_from_defect (defect : Defect) (defect_supercell : PMGStructure)
    (charge_state : Int) (dummy_species : String) : Option DefectEntry :=
  match dummySites defect_supercell dummy_species with
  | [] => none
  | dummy_site :: _ =>
      some { defect := defect
             charge_state := charge_state
             sc_entry := { structure' := defect_supercell.erase dummy_site
                           energy := 0 }
             sc_defect_frac_coords := dummy_site.frac_coords
             name := "" }

/-- Embedding of _defect_dict_key_from_pmg_type (generation.py lines
87-98). -/
def defect_dict_key_from_pmg_type : DefectType → String
  | DefectType.Vacancy => "vacancies"
  | DefectType.Substitution => "substitutions"
  | DefectType.Interstitial => "interstitials"
  | DefectType.Other => "others"

/-! Naming helpers.  The base-name computation and the letter-assignment
registry live in the external shakenbreak input module (imported by
generation.py, not part of src/), so they are modelled from the spec. -/

/-- Embedding of the external helper _get_defect_name_from_obj: computes the
base name of a defect from kind plus site/multiplicity descriptor.  The
descriptor computation is external; the Defect model carries its result. -/
def get_defect_name_from_obj (d : Defect) : String :=
  d.snb_name

/-- Nth lowercase disambiguation letter (index 0 is the letter a). -/
def letterForIndex (k : Nat) : String :=
  String.singleton (Char.ofNat (Char.toNat 'a' + k))

/-- Modelled from the spec: the external helper _update_defect_dict
(shakenbreak input module, not under src/), steps 2-4 of the naming
algorithm in section 4.4.  The registry maps each base name to how many
placements of that base were seen so far.  A base not seen before is
assigned directly; a base seen once before (still undecorated) makes the
new placement carry the letter b (the caller then retroactively renames
the stored undecorated entries to carry the letter a); a base already seen
with letters gets the next letter in sequence. -/
def update_defect_dict (base : String) (dict : List (String × Nat)) :
    String × List (String × Nat) :=
  match dictGet base dict with
  | none => (base, dictInsert base 1 dict)
  | some 1 => (base ++ "b", dictInsert base 2 dict)
  | some k => (base ++ letterForIndex k, dictInsert base (k + 1) dict)

/-- One iteration of the retroactive renaming loop body (generation.py
lines 341-354): when the snapshot key starts with the undecorated base
followed by an underscore, the entry is reinserted under the base decorated
with the letter a and its old key deleted, and the charge parsed from the
old key rebinds the loop variable carried in the second state component. -/
def renameStep (base : String) (st : List (String × DefectEntry) × Int)
    (p : String × DefectEntry) : List (String × DefectEntry) × Int :=
  if strStartsWith p.1 ((strDropRight base 1) ++ "_") then
    let c := parseIntStr (lastSegment p.1)
    let newName := (strDropRight base 1) ++ "a_" ++ chargeSuffix c
    (dictErase p.1 (dictInsert newName { p.2 with name := newName } st.1), c)
  else st

/-- Embedding of the retroactive renaming loop of DefectsGenerator.__init__
(generation.py lines 335-354), entered when the freshly assigned name ends
with the letter b.  It iterates over a snapshot of defect_entries, applying
renameStep to every stored binding.  Crucially, line 344 rebinds the charge
variable of the enclosing charge loop to the charge parsed from each
renamed key; the second component of the result is the final value of that
variable. -/
def renameLoop (base : String) (entries : List (String × DefectEntry))
    (charge : Int) : List (String × DefectEntry) × Int :=
  entries.foldl (renameStep base) (entries, charge)

/-- Embedding of the inner charge loop of DefectsGenerator.__init__
(generation.py lines 320-361) for one defect: builds one DefectEntry per
charge state, computes the name without charge on the first iteration only
(running the retroactive renaming when it ends with the letter b, which may
rebind the loop variable charge for the remainder of that iteration), and
stores each entry in defect_entries under its full name. -/
def chargeLoop (defect : Defect) (sc : PMGStructure) :
    List Int → List (String × DefectEntry) → List (String × Nat) →
    Option String → Option (List (String × DefectEntry) × List (String × Nat))
  | [], entries, naming, _ => some (entries, naming)
  | charge :: rest, entries, naming, baseOpt =>
    match get_defect_entry_from_defect defect sc charge "X" with
    | none => none
    | some defect_entry =>
      match baseOpt with
      | some base =>
          let defect_name := base ++ "_" ++ chargeSuffix charge
          chargeLoop defect sc rest
            (dictInsert defect_name { defect_entry with name := defect_name } entries)
            naming (some base)
      | none =>
          let base := (update_defect_dict (get_defect_name_from_obj defect) naming).1
          let naming' := (update_defect_dict (get_defect_name_from_obj defect) naming).2
          let st := if strEndsWith base "b" then renameLoop base entries charge
                    else (entries, charge)
          let defect_name := base ++ "_" ++ chargeSuffix st.2
          chargeLoop defect sc rest
            (dictInsert defect_name { defect_entry with name := defect_name } st.1)
            naming' (some base)

/-- Embedding of the per-defect loop of DefectsGenerator.__init__
(generation.py lines 300-364) over the defects of one kind: derives each
defect supercell from the shared matrix via the external
get_supercell_structure method (gss, with dummy species X) and runs the
charge loop. -/
def defectLoop (gss : Defect → SCMatrix → String → PMGStructure) (M : SCMatrix) :
    List Defect → List (String × DefectEntry) → List (String × Nat) →
    Option (List (String × DefectEntry) × List (String × Nat))
  | [], entries, naming => some (entries, naming)
  | d :: ds, entries, naming =>
      match chargeLoop d (gss d M "X") (chargeStates d.oxi_state) entries naming none with
      | none => none
      | some st => defectLoop gss M ds st.1 st.2

/-- Embedding of the outer loop of DefectsGenerator.__init__ (generation.py
lines 298-364) over defect kinds: the naming registry is reset for each
kind, while defect_entries accumulates across kinds. -/
def kindLoop (gss : Defect → SCMatrix → String → PMGStructure) (M : SCMatrix) :
    List (String × List Defect) → List (String × DefectEntry) →
    Option (List (String × DefectEntry))
  | [], entries => some entries
  | kd :: rest, entries =>
      match defectLoop gss M kd.2 entries [] with
      | none => none
      | some st => kindLoop gss M rest st.1

/-- Keyword arguments of DefectsGenerator forwarded to get_sc_fromstruct
(generation.py lines 284-292); a field left none means the keyword was not
supplied and the documented default applies. -/
structure SupercellKwargs where
  min_atoms : Option Nat := none
  max_atoms : Option Nat := none
  min_length : Option ℚ := none
  force_diagonal : Option Bool := none
deriving DecidableEq, Repr

/-- The DefectsGenerator facade state: the kind-to-defects dict, the
name-to-entry dict, the primitive structure and the shared supercell
matrix. -/
structure DefectsGenerator where
  defects : List (String × List Defect)
  defect_entries : List (String × DefectEntry)
  primitive_structure : PMGStructure
  supercell_matrix : SCMatrix
deriving DecidableEq, Repr

/-- Embedding of DefectsGenerator.__init__ (generation.py lines 102-367).
External collaborators are parameters: primFn is the symmetry reduction to
the primitive standard structure followed by coordinate rounding (lines
165-170), enumFn runs the four defect enumerators over the primitive
structure and returns the kind-keyed defect dict (lines 173-279), getSC is
get_sc_fromstruct (lines 284-292) and gss is the external
Defect.get_supercell_structure method.  The supercell matrix is obtained
from a single getSC call with keyword defaults min_atoms 50, max_atoms 240,
min_length 10 and force_diagonal false, and that stored matrix is the one
threaded through every defect supercell construction. -/
def DefectsGenerator.init (primFn : PMGStructure → PMGStructure)
    (enumFn : PMGStructure → List (String × List Defect))
    (getSC : PMGStructure → Nat → Nat → ℚ → Bool → SCMatrix)
    (gss : Defect → SCMatrix → String → PMGStructure)
    (structure0 : PMGStructure) (kwargs : SupercellKwargs) :
    Option DefectsGenerator :=
  let prim := primFn structure0
  let defects := enumFn prim
  let M := getSC prim (kwargs.min_atoms.getD 50) (kwargs.max_atoms.getD 240)
      (kwargs.min_length.getD 10) (kwargs.force_diagonal.getD false)
  match kindLoop gss M defects [] with
  | none => none
  | some entries => some ⟨defects, entries, prim, M⟩

/-- Embedding of DefectsGenerator.__getitem__ (generation.py lines 487-492):
lookup in the defect_entries dict (none models the KeyError). -/
def DefectsGenerator.getitem (g : DefectsGenerator) (key : String) :
    Option DefectEntry :=
  dictGet key g.defect_entries

/-- Values assignable through the facade: either a DefectEntry, or a value
of any other Python type (carrying only its type name, which is all the
type check inspects). -/
inductive PyValue where
  | defectEntry : DefectEntry → PyValue
  | other : String → PyValue
deriving DecidableEq, Repr

/-- The exceptions DefectsGenerator.__setitem__ can raise. -/
inductive SetItemError where
  | typeError : String → SetItemError
  | primitiveStructureMismatch : SetItemError
  | supercellMismatch : SetItemError
  | indexError : SetItemError
deriving DecidableEq, Repr

/-- Embedding of DefectsGenerator.__setitem__ (generation.py lines
494-539), threading the facade state so that the state at the moment an
exception is raised is returned alongside the error.  Checks run in source
order: the value must be a DefectEntry, its defect must carry the same
primitive structure, and re-deriving the supercell entry from its defect
with the shared matrix (via gss and get_defect_entry_from_defect; the
indexError case is the dummy-site lookup failing inside the latter) must
reproduce the stored sc_entry.  Only then is the entry stored under the key
and the defect registered under its kind when not already present. -/
def DefectsGenerator.setitem (gss : Defect → SCMatrix → String → PMGStructure)
    (g : DefectsGenerator) (key : String) (value : PyValue) :
    DefectsGenerator × Option SetItemError :=
  match value with
  | PyValue.other t => (g, some (SetItemError.typeError t))
  | PyValue.defectEntry v =>
    if v.defect.structure' ≠ g.primitive_structure then
      (g, some SetItemError.primitiveStructureMismatch)
    else
      match get_defect_entry_from_defect v.defect (gss v.defect g.supercell_matrix "X") 0 "X" with
      | none => (g, some SetItemError.indexError)
      | some defect_entry =>
        if defect_entry.sc_entry ≠ v.sc_entry then
          (g, some SetItemError.supercellMismatch)
        else
          let entries' := dictInsert key v g.defect_entries
          let dkey := defect_dict_key_from_pmg_type v.defect.defect_type
          let defects1 := match dictGet dkey g.defects with
            | none => dictInsert dkey [] g.defects
            | some _ => g.defects
          let dlist := (dictGet dkey defects1).getD []
          let defects' := if v.defect ∈ dlist then defects1
                          else dictInsert dkey (dlist ++ [v.defect]) defects1
          ({ g with defect_entries := entries', defects := defects' }, none)

/-- Embedding of DefectsGenerator.__delitem__ (generation.py lines 541-547):
deletes the named entry from defect_entries (none models the KeyError for a
missing key); the defects dict is untouched. -/
def DefectsGenerator.delitem (g : DefectsGenerator) (key : String) :
    Option DefectsGenerator :=
  match dictGet key g.defect_entries with
  | none => none
  | some _ => some { g with defect_entries := dictErase key g.defect_entries }

/-- A generator dict as passed around by as_dict, from_dict and the
MontyDecoder: the module and class marker keys (present in the dict that
as_dict builds, absent after the decoder strips them) plus the four state
fields, holding the in-memory objects themselves. -/
structure GeneratorDict where
  at_module : Option String
  at_class : Option String
  defects : List (String × List Defect)
  defect_entries : List (String × DefectEntry)
  primitive_structure : PMGStructure
  supercell_matrix : SCMatrix
deriving DecidableEq, Repr

/-- Embedding of DefectsGenerator.as_dict (generation.py lines 369-382):
the four state fields under the module and class markers. -/
def DefectsGenerator.as_dict (g : DefectsGenerator) : GeneratorDict :=
  { at_module := some "doped.generation"
    at_class := some "DefectsGenerator"
    defects := g.defects
    defect_entries := g.defect_entries
    primitive_structure := g.primitive_structure
    supercell_matrix := g.supercell_matrix }

/-- Result of the external MontyDecoder process_decoded call on a
generator dict: either still a plain dict of in-memory objects, or a
reconstructed DefectsGenerator instance. -/
inductive Decoded where
  | dict : GeneratorDict → Decoded
  | generator : DefectsGenerator → Decoded
deriving DecidableEq, Repr

/-- The external MontyDecoder process_decoded call made by from_dict.  On
a dict carrying both the module and the class marker it imports the named
class, strips the marker keys and returns cls.from_dict(data); for
DefectsGenerator that recursive call receives the unmarked four-field
dict, whose own decode is the identity on the already in-memory values,
so it builds a bare instance holding exactly those four fields.  That one
level of recursion is unfolded here, which is sound because the stripped
dict carries no markers.  On a dict without both markers the decoder maps
over the values, the identity on in-memory objects. -/
def process_decoded (d : GeneratorDict) : Decoded :=
  if d.at_module.isSome && d.at_class.isSome then
    Decoded.generator
      { defects := d.defects
        defect_entries := d.defect_entries
        primitive_structure := d.primitive_structure
        supercell_matrix := d.supercell_matrix }
  else
    Decoded.dict d

/-- The non-normal outcomes of DefectsGenerator.from_dict: a KeyError
raised by a subscript, or assignments whose dynamic values a typed
DefectsGenerator cannot hold. -/
inductive FromDictError where
  | keyError : String → FromDictError
  | unrepresentable : FromDictError
deriving DecidableEq, Repr

/-- Embedding of DefectsGenerator.from_dict (generation.py lines 384-407):
decodes the argument with MontyDecoder and sets the four attributes on a
bare instance by subscripting the decoded value.  When the decode returned
a plain dict, the subscripts read its fields.  When the markers were
present, the decode reconstructed a DefectsGenerator, and every subscript
on it goes through DefectsGenerator.__getitem__, a lookup in
defect_entries: the first of the four keys (in the source order of lines
402-405, starting with the key defects) that is not an entry name raises
KeyError.  In the corner where all four lookups succeed, the assignments
store DefectEntry values where the collections belong; the typed state
cannot represent that object, so it is modelled as the distinct
unrepresentable outcome. -/
def DefectsGenerator.from_dict (d : GeneratorDict) :
    Except FromDictError DefectsGenerator :=
  match process_decoded d with
  | Decoded.dict dd =>
      Except.ok
        { defects := dd.defects
          defect_entries := dd.defect_entries
          primitive_structure := dd.primitive_structure
          supercell_matrix := dd.supercell_matrix }
  | Decoded.generator g' =>
      if (DefectsGenerator.getitem g' "defects").isNone then
        Except.error (FromDictError.keyError "defects")
      else if (DefectsGenerator.getitem g' "defect_entries").isNone then
        Except.error (FromDictError.keyError "defect_entries")
      else if (DefectsGenerator.getitem g' "primitive_structure").isNone then
        Except.error (FromDictError.keyError "primitive_structure")
      else if (DefectsGenerator.getitem g' "supercell_matrix").isNone then
        Except.error (FromDictError.keyError "supercell_matrix")
      else
        Except.error FromDictError.unrepresentable

/-- Modelled from the spec: FermiSolver._get_interpolated_chempots of the
Fermi-solver companion module (not under src/; exercised by
tests/test_fermisolver.py).  It linearly interpolates between two
per-element chemical-potential dicts into n_points evenly spaced samples
inclusive of both ends: sample i maps each element of the start dict to
start + (end - start) * i / (n_points - 1). -/
def get_interpolated_chempots (chempot_start chempot_end : List (String × ℚ))
    (n_points : Nat) : List (List (String × ℚ)) :=
  (List.range n_points).map (fun (i : Nat) =>
    chempot_start.map (fun p =>
      (p.1, p.2 + (((dictGet p.1 chempot_end).getD 0) - p.2) * (i : ℚ) / ((n_points : ℚ) - 1))))

/-! Concrete fixtures: a one-site host with two symmetry-distinct vacancies
that share the base name v (the external naming helper yields the same base
for both), exercising the naming-collision path of the generator. -/

/-- Demo primitive structure: a single host site. -/
def demoPrim : PMGStructure := [{ species := "A", frac_coords := [0, 0, 0] }]

/-- First vacancy of the demo host. -/
def demoD1 : Defect :=
  { structure' := demoPrim, defect_type := DefectType.Vacancy, oxi_state := 0,
    site := [0, 0, 0], multiplicity := 1, snb_name := "v" }

/-- Second symmetry-distinct vacancy of the demo host, sharing the base name
of the first. -/
def demoD2 : Defect :=
  { structure' := demoPrim, defect_type := DefectType.Vacancy, oxi_state := 0,
    site := [1, 1, 1], multiplicity := 1, snb_name := "v" }

/-- Demo supercell matrix (identity). -/
def demoM : SCMatrix := [[1, 0, 0], [0, 1, 0], [0, 0, 1]]

/-- Demo Defect.get_supercell_structure: the supercell carries the dummy
site at the defect site coordinates plus the host site. -/
def demoGss : Defect → SCMatrix → String → PMGStructure :=
  fun d _ s => [{ species := s, frac_coords := d.site },
                { species := "A", frac_coords := [0, 0, 0] }]

/-- Demo primitive-cell reduction (the input is already primitive). -/
def demoPrimFn : PMGStructure → PMGStructure := fun s => s

/-- Demo defect enumeration: one kind with the two colliding vacancies. -/
def demoEnumFn : PMGStructure → List (String × List Defect) :=
  fun _ => [("vacancies", [demoD1, demoD2])]

/-- Demo get_sc_fromstruct. -/
def demoGetSC : PMGStructure → Nat → Nat → ℚ → Bool → SCMatrix :=
  fun _ _ _ _ _ => demoM

/-- The generator construction on the demo host with default keywords. -/
def demoInit : Option DefectsGenerator :=
  DefectsGenerator.init demoPrimFn demoEnumFn demoGetSC demoGss demoPrim {}

/-- The supercell entry shared by all demo entries (the host site after the
dummy site is removed). -/
def demoSC1 : ComputedStructureEntry :=
  { structure' := [{ species := "A", frac_coords := [0, 0, 0] }], energy := 0 }

/-- The generator state the demo construction produces.  Note the effect of
the charge-variable rebinding in the renaming loop: the first charge state
of the second (colliding) defect is stored under the key vb_+1 (parsed from
the last renamed entry) instead of vb_-1, and is later overwritten by the
genuine charge +1 entry, so no vb_-1 entry survives. -/
def gDemo : DefectsGenerator :=
  { defects := [("vacancies", [demoD1, demoD2])]
    defect_entries :=
      [("va_-1", { defect := demoD1, charge_state := -1, sc_entry := demoSC1,
                   sc_defect_frac_coords := [0, 0, 0], name := "va_-1" }),
       ("va_0", { defect := demoD1, charge_state := 0, sc_entry := demoSC1,
                  sc_defect_frac_coords := [0, 0, 0], name := "va_0" }),
       ("va_+1", { defect := demoD1, charge_state := 1, sc_entry := demoSC1,
                   sc_defect_frac_coords := [0, 0, 0], name := "va_+1" }),
       ("vb_+1", { defect := demoD2, charge_state := 1, sc_entry := demoSC1,
                   sc_defect_frac_coords := [1, 1, 1], name := "vb_+1" }),
       ("vb_0", { defect := demoD2, charge_state := 0, sc_entry := demoSC1,
                  sc_defect_frac_coords := [1, 1, 1], name := "vb_0" })]
    primitive_structure := demoPrim
    supercell_matrix := demoM }

/-- Evaluation of the demo construction. -/
lemma demoInit_eq : demoInit = some gDemo := by decide

/-- A defect entry as the assembler derives it for demoD1 at charge 0. -/
def demoEntry : DefectEntry :=
  { defect := demoD1, charge_state := 0, sc_entry := demoSC1,
    sc_defect_frac_coords := [0, 0, 0], name := "" }

/-- A facade state holding the first demo vacancy and no entries. -/
def demoG0 : DefectsGenerator :=
  { defects := [("vacancies", [demoD1])], defect_entries := [],
    primitive_structure := demoPrim, supercell_matrix := demoM }

/-- A facade state holding the first demo vacancy and one entry. -/
def demoG1 : DefectsGenerator :=
  { defects := [("vacancies", [demoD1])], defect_entries := [("v_0", demoEntry)],
    primitive_structure := demoPrim, supercell_matrix := demoM }

/-- A supercell containing two dummy sites. -/
def demoTwoDummy : PMGStructure :=
  [{ species := "X", frac_coords := [0, 0, 0] },
   { species := "X", frac_coords := [1, 1, 1] },
   { species := "A", frac_coords := [0, 0, 0] }]

/-! Lemmas about the dict operations. -/

lemma dictGet_insert_self {α : Type} (k : String) (v : α) (d : List (String × α)) :
    dictGet k (dictInsert k v d) = some v := by
  induction d with
  | nil => simp [dictInsert, dictGet]
  | cons p rest ih =>
      obtain ⟨k', v'⟩ := p
      by_cases h : k' = k
      · simp [dictInsert, dictGet, h]
      · simp [dictInsert, dictGet, h, ih]

lemma dictGet_insert_ne {α : Type} {k' k : String} (v : α) (d : List (String × α))
    (h : k' ≠ k) : dictGet k' (dictInsert k v d) = dictGet k' d := by
  induction d with
  | nil => simp [dictInsert, dictGet, Ne.symm h]
  | cons p rest ih =>
      obtain ⟨k1, v1⟩ := p
      by_cases h1 : k1 = k
      · subst h1
        simp [dictInsert, dictGet, Ne.symm h]
      · simp [dictInsert, dictGet, h1, ih]

lemma dictGet_eq_none_of_not_mem {α : Type} {k : String} {d : List (String × α)}
    (h : k ∉ dictKeys d) : dictGet k d = none := by
  induction d with
  | nil => simp [dictGet]
  | cons p rest ih =>
      obtain ⟨k1, v1⟩ := p
      simp only [dictKeys, List.map_cons, List.mem_cons] at h
      push_neg at h
      simp [dictGet, Ne.symm h.1, ih (by simpa [dictKeys] using h.2)]

lemma dictGet_erase_self {α : Type} {k : String} {d : List (String × α)}
    (hnd : (dictKeys d).Nodup) : dictGet k (dictErase k d) = none := by
  induction d with
  | nil => simp [dictErase, dictGet]
  | cons p rest ih =>
      obtain ⟨k1, v1⟩ := p
      simp only [dictKeys, List.map_cons, List.nodup_cons] at hnd
      by_cases h1 : k1 = k
      · subst h1
        have hnotin : k1 ∉ dictKeys rest := by simpa [dictKeys] using hnd.1
        simpa [dictErase] using dictGet_eq_none_of_not_mem hnotin
      · simp [dictErase, dictGet, h1, ih hnd.2]

lemma dictGet_erase_ne {α : Type} {k' k : String} (d : List (String × α))
    (h : k' ≠ k) : dictGet k' (dictErase k d) = dictGet k' d := by
  induction d with
  | nil => simp [dictErase]
  | cons p rest ih =>
      obtain ⟨k1, v1⟩ := p
      by_cases h1 : k1 = k
      · subst h1
        simp [dictErase, dictGet, Ne.symm h]
      · simp [dictErase, dictGet, h1, ih]

/-! Claim theorems. -/

lemma mem_pyRange {a b c : Int} : c ∈ pyRange a b ↔ a ≤ c ∧ c < b := by
  unfold pyRange
  rw [List.mem_map]
  constructor
  · rintro ⟨i, hi, rfl⟩
    rw [List.mem_range] at hi
    omega
  · rintro ⟨h1, h2⟩
    refine ⟨(c - a).toNat, ?_, ?_⟩
    · rw [List.mem_range]
      omega
    · omega

/-- C1: in the naming-collision scenario the code does not deliver what the
claim states.  On the demo host with two same-kind defects sharing base
name v (oxidation state 0), the previously stored entries are indeed
retroactively renamed to va_-1, va_0, va_+1 and no undecorated v_<charge>
key remains, but the second defect does not end up with entries for all of
its charge states under vb_<charge>: the rebinding of the charge loop
variable inside the renaming loop (generation.py line 344) makes the first
charge state of the colliding defect get stored under vb_+1 (where it is
later overwritten), so no vb_-1 entry exists. -/
theorem C1_collision_renaming_code_bug :
    demoInit = some gDemo ∧
    dictKeys gDemo.defect_entries = ["va_-1", "va_0", "va_+1", "vb_+1", "vb_0"] ∧
    dictGet "vb_-1" gDemo.defect_entries = none ∧
    dictGet "v_-1" gDemo.defect_entries = none ∧
    dictGet "v_0" gDemo.defect_entries = none ∧
    dictGet "v_+1" gDemo.defect_entries = none :=
  ⟨demoInit_eq, by decide, by decide, by decide, by decide, by decide⟩

/-- C2: the charge-state set is exactly range(-1, oxi+1) for a positive
oxidation state, exactly range(oxi, 2) for a negative one, exactly
[-1, 0, 1] for zero, and in every case it is a contiguous integer range
containing 0 (membership is equivalent to lying between min(oxi, -1) and
max(oxi, 1)). -/
theorem C2_charge_state_set (oxi : Int) :
    (0 < oxi → chargeStates oxi = pyRange (-1) (oxi + 1)) ∧
    (oxi < 0 → chargeStates oxi = pyRange oxi 2) ∧
    (oxi = 0 → chargeStates oxi = [-1, 0, 1]) ∧
    (0 : Int) ∈ chargeStates oxi ∧
    (∀ c : Int, c ∈ chargeStates oxi ↔ min oxi (-1) ≤ c ∧ c ≤ max oxi 1) := by
  refine ⟨?_, ?_, ?_, ?_, ?_⟩
  · intro h
    simp [chargeStates, h]
  · intro h
    simp [chargeStates, h, not_lt.mpr (le_of_lt h)]
  · intro h
    subst h
    simp [chargeStates]
  · rcases lt_trichotomy 0 oxi with h | h | h
    · simp only [chargeStates, if_pos h]
      rw [mem_pyRange]
      omega
    · simp [chargeStates, ← h]
    · simp only [chargeStates, if_neg (by omega : ¬ 0 < oxi), if_pos h]
      rw [mem_pyRange]
      omega
  · intro c
    rcases lt_trichotomy 0 oxi with h | h | h
    · simp only [chargeStates, if_pos h]
      rw [mem_pyRange]
      omega
    · simp only [chargeStates, if_neg (by omega : ¬ 0 < oxi),
        if_neg (by omega : ¬ oxi < 0), List.mem_cons, List.not_mem_nil, or_false]
      omega
    · simp only [chargeStates, if_neg (by omega : ¬ 0 < oxi), if_pos h]
      rw [mem_pyRange]
      omega

/-- Witness for C2 at the three concrete oxidation states used by the
spec. -/
theorem C2_charge_state_set_witness :
    chargeStates 2 = [-1, 0, 1, 2] ∧ chargeStates (-2) = [-2, -1, 0, 1] ∧
    chargeStates 0 = [-1, 0, 1] := by
  refine ⟨?_, ?_, ?_⟩
  · rw [(C2_charge_state_set 2).1 (by norm_num)]
    decide
  · rw [(C2_charge_state_set (-2)).2.1 (by norm_num)]
    decide
  · exact (C2_charge_state_set 0).2.2.1 rfl

/-- C3: refuted on the demo collision host.  The charge state -1 belongs to
the charge-state set of the second colliding defect, yet after construction
no stored entry at all has that defect and charge state (its entry was
stored under the wrong key vb_+1, parsed from the last renamed entry, and
then overwritten by the genuine charge +1 entry), so it is not the case
that every (defect, charge state) pair has exactly one stored entry. -/
theorem C3_charge_entry_lost_code_bug :
    demoInit = some gDemo ∧
    (-1 : Int) ∈ chargeStates demoD2.oxi_state ∧
    ∀ p ∈ gDemo.defect_entries, ¬ (p.2.defect = demoD2 ∧ p.2.charge_state = -1) :=
  ⟨demoInit_eq, by decide, by decide⟩

/-- C5: refuted on the code, evaluated at the one-entry demo facade.  The
dict that as_dict builds carries the module and class markers, so the
MontyDecoder pass inside from_dict reconstructs a DefectsGenerator — with
exactly the four fields of the original, as the first conjunct shows, so
the data itself survives the decode — and the subsequent subscript of the
decoded value with the key defects (generation.py line 402) goes through
DefectsGenerator.__getitem__ into defect_entries, where no entry bears
that name, and raises KeyError: the direct round trip the claim states
raises instead of returning an object with equal fields. -/
theorem C5_round_trip_keyerror_code_bug :
    process_decoded (DefectsGenerator.as_dict demoG1) = Decoded.generator demoG1 ∧
    DefectsGenerator.from_dict (DefectsGenerator.as_dict demoG1) =
      Except.error (FromDictError.keyError "defects") :=
  ⟨rfl, rfl⟩

/-- C6 counterexample: a supercell containing two dummy sites is not a
fatal contract violation for the assembler; the call succeeds (it silently
uses the first dummy site), contradicting the claim that a duplicated
dummy site must make the call fail. -/
theorem C6_duplicated_dummy_not_fatal :
    (dummySites demoTwoDummy "X").length = 2 ∧
    (get_defect_entry_from_defect demoD1 demoTwoDummy 0 "X").isSome = true := by
  decide

/-- C6 amended: the assembler fails exactly when the supplied supercell
contains no dummy-species site; whenever at least one dummy site is present
(including a duplicated one) it proceeds with the first matching site,
recording its fractional coordinates, removing that occurrence from the
copy and wrapping the remaining structure with placeholder energy 0.0.  In
particular, with exactly one dummy site present the behaviour is the one
the claim describes. -/
theorem C6_assembler_requires_dummy (d : Defect) (sc : PMGStructure) (c : Int)
    (dummy : String) :
    (get_defect_entry_from_defect d sc c dummy = none ↔ dummySites sc dummy = []) ∧
    (∀ s rest, dummySites sc dummy = s :: rest →
      get_defect_entry_from_defect d sc c dummy =
        some { defect := d, charge_state := c,
               sc_entry := { structure' := sc.erase s, energy := 0 },
               sc_defect_frac_coords := s.frac_coords, name := "" }) := by
  constructor
  · cases h : dummySites sc dummy with
    | nil => simp [get_defect_entry_from_defect, h]
    | cons s rest => simp [get_defect_entry_from_defect, h]
  · intro s rest h
    simp [get_defect_entry_from_defect, h]

/-- Witness for the amended C6 on a one-dummy supercell. -/
theorem C6_assembler_requires_dummy_witness :
    get_defect_entry_from_defect demoD1 (demoGss demoD1 demoM "X") 0 "X" =
      some { defect := demoD1, charge_state := 0,
             sc_entry := { structure' := (demoGss demoD1 demoM "X").erase
                             { species := "X", frac_coords := [0, 0, 0] },
                           energy := 0 },
             sc_defect_frac_coords := [0, 0, 0], name := "" } :=
  (C6_assembler_requires_dummy demoD1 (demoGss demoD1 demoM "X") 0 "X").2
    { species := "X", frac_coords := [0, 0, 0] } [] (by decide)

/-- C8: deleting a present key removes exactly that entry: lookups of every
other key are unchanged, and the defects collection, primitive structure
and supercell matrix are untouched (so the underlying Defect of the deleted
entry stays registered). -/
theorem C8_delitem_removes_only_named_entry (g : DefectsGenerator) (key : String)
    (hnd : (dictKeys g.defect_entries).Nodup)
    (hk : (dictGet key g.defect_entries).isSome = true) :
    ∃ g', DefectsGenerator.delitem g key = some g' ∧
      dictGet key g'.defect_entries = none ∧
      (∀ k, k ≠ key → dictGet k g'.defect_entries = dictGet k g.defect_entries) ∧
      g'.defects = g.defects ∧
      g'.primitive_structure = g.primitive_structure ∧
      g'.supercell_matrix = g.supercell_matrix := by
  rcases h : dictGet key g.defect_entries with _ | v
  · rw [h] at hk
    simp at hk
  · refine ⟨{ g with defect_entries := dictErase key g.defect_entries }, ?_,
      dictGet_erase_self hnd, fun k hkne => dictGet_erase_ne _ hkne, rfl, rfl, rfl⟩
    unfold DefectsGenerator.delitem
    rw [h]

/-- Witness for C8 on a one-entry facade. -/
theorem C8_delitem_witness :
    ∃ g', DefectsGenerator.delitem demoG1 "v_0" = some g' ∧
      dictGet "v_0" g'.defect_entries = none ∧
      (∀ k, k ≠ "v_0" → dictGet k g'.defect_entries = dictGet k demoG1.defect_entries) ∧
      g'.defects = demoG1.defects ∧
      g'.primitive_structure = demoG1.primitive_structure ∧
      g'.supercell_matrix = demoG1.supercell_matrix :=
  C8_delitem_removes_only_named_entry demoG1 "v_0" (by decide) (by decide)

/-- C10: assignment never compares the key with the name attribute of the
assigned entry: whenever the structure and supercell validations pass, the
assignment succeeds and the entry is reachable under the given key, even
though its name differs from the key. -/
theorem C10_setitem_does_not_check_name (gss : Defect → SCMatrix → String → PMGStructure)
    (g : DefectsGenerator) (key : String) (v : DefectEntry)
    (hstruct : v.defect.structure' = g.primitive_structure)
    (hsc : ∃ e, get_defect_entry_from_defect v.defect (gss v.defect g.supercell_matrix "X") 0 "X" = some e ∧
      e.sc_entry = v.sc_entry)
    (_hname : v.name ≠ key) :
    (DefectsGenerator.setitem gss g key (PyValue.defectEntry v)).2 = none ∧
    dictGet key (DefectsGenerator.setitem gss g key (PyValue.defectEntry v)).1.defect_entries = some v := by
  obtain ⟨e, he, hesc⟩ := hsc
  have h1 : ¬ v.defect.structure' ≠ g.primitive_structure := by simp [hstruct]
  have h2 : ¬ e.sc_entry ≠ v.sc_entry := by simp [hesc]
  simp only [DefectsGenerator.setitem, if_neg h1, he, if_neg h2]
  simp [dictGet_insert_self]

/-- Witness for C10: assigning the demo entry (name is the empty string)
under an unrelated key. -/
theorem C10_setitem_does_not_check_name_witness :
    (DefectsGenerator.setitem demoGss demoG0 "arbitrary_key" (PyValue.defectEntry demoEntry)).2 = none ∧
    dictGet "arbitrary_key" (DefectsGenerator.setitem demoGss demoG0 "arbitrary_key"
      (PyValue.defectEntry demoEntry)).1.defect_entries = some demoEntry :=
  C10_setitem_does_not_check_name demoGss demoG0 "arbitrary_key" demoEntry (by decide)
    ⟨demoEntry, by decide, by decide⟩ (by decide)

/-- C4: assignment through the facade raises exactly when the value is not
a DefectEntry, or its defect carries a different primitive structure, or
the supercell entry re-derived from its defect with the shared matrix
differs from the stored one; a raise leaves the facade state untouched,
and a successful assignment stores the entry under the given key, leaves
structure and matrix unchanged, and appends the Defect to the list of its
kind exactly when not already present (other kinds untouched).  The
hypothesis states the external supercell-method contract (the re-derived
supercell contains a dummy site), under which the inner IndexError branch
is unreachable. -/
theorem C4_setitem_validation (gss : Defect → SCMatrix → String → PMGStructure)
    (g : DefectsGenerator) (key : String) (value : PyValue)
    (hdum : ∀ v : DefectEntry, value = PyValue.defectEntry v →
      (get_defect_entry_from_defect v.defect (gss v.defect g.supercell_matrix "X") 0 "X").isSome = true) :
    ((DefectsGenerator.setitem gss g key value).2.isSome = true ↔
      ((∃ t, value = PyValue.other t) ∨
       (∃ v, value = PyValue.defectEntry v ∧
         (v.defect.structure' ≠ g.primitive_structure ∨
          ∃ e, get_defect_entry_from_defect v.defect (gss v.defect g.supercell_matrix "X") 0 "X" = some e ∧
            e.sc_entry ≠ v.sc_entry)))) ∧
    ((DefectsGenerator.setitem gss g key value).2.isSome = true →
      (DefectsGenerator.setitem gss g key value).1 = g) ∧
    ((DefectsGenerator.setitem gss g key value).2 = none →
      ∀ v, value = PyValue.defectEntry v →
        (DefectsGenerator.setitem gss g key value).1.defect_entries =
          dictInsert key v g.defect_entries ∧
        (DefectsGenerator.setitem gss g key value).1.primitive_structure = g.primitive_structure ∧
        (DefectsGenerator.setitem gss g key value).1.supercell_matrix = g.supercell_matrix ∧
        dictGet (defect_dict_key_from_pmg_type v.defect.defect_type)
            (DefectsGenerator.setitem gss g key value).1.defects =
          some (if v.defect ∈ (dictGet (defect_dict_key_from_pmg_type v.defect.defect_type) g.defects).getD []
                then (dictGet (defect_dict_key_from_pmg_type v.defect.defect_type) g.defects).getD []
                else (dictGet (defect_dict_key_from_pmg_type v.defect.defect_type) g.defects).getD [] ++ [v.defect]) ∧
        (∀ k, k ≠ defect_dict_key_from_pmg_type v.defect.defect_type →
          dictGet k (DefectsGenerator.setitem gss g key value).1.defects = dictGet k g.defects)) := by
  cases value with
  | other t =>
      refine ⟨iff_of_true rfl (Or.inl ⟨t, rfl⟩), fun _ => rfl, ?_⟩
      intro _ v hv
      exact PyValue.noConfusion hv
  | defectEntry v =>
      have hsome := hdum v rfl
      rw [Option.isSome_iff_exists] at hsome
      obtain ⟨e, he⟩ := hsome
      by_cases hs : v.defect.structure' = g.primitive_structure
      · by_cases hsc : e.sc_entry = v.sc_entry
        · -- all checks pass: the assignment succeeds
          have h1 : ¬ v.defect.structure' ≠ g.primitive_structure := not_not_intro hs
          have h2 : ¬ e.sc_entry ≠ v.sc_entry := not_not_intro hsc
          refine ⟨?_, ?_, ?_⟩
          · apply iff_of_false
            · simp [DefectsGenerator.setitem, if_neg h1, he, if_neg h2]
            · rintro (⟨t, ht⟩ | ⟨v', hv', hdisj⟩)
              · exact PyValue.noConfusion ht
              · injection hv' with hv''
                subst hv''
                rcases hdisj with hbad | ⟨e', he', hne⟩
                · exact hbad hs
                · rw [he] at he'
                  injection he' with he''
                  subst he''
                  exact hne hsc
          · intro hcontra
            exfalso
            simp [DefectsGenerator.setitem, if_neg h1, he, if_neg h2] at hcontra
          · intro _ v' hv'
            injection hv' with hv''
            subst hv''
            refine ⟨?_, ?_, ?_, ?_, ?_⟩
            · simp [DefectsGenerator.setitem, if_neg h1, he, if_neg h2]
            · simp [DefectsGenerator.setitem, if_neg h1, he, if_neg h2]
            · simp [DefectsGenerator.setitem, if_neg h1, he, if_neg h2]
            · rcases hd : dictGet (defect_dict_key_from_pmg_type v.defect.defect_type) g.defects with _ | l
              · simp [DefectsGenerator.setitem, if_neg h1, he, if_neg h2, hd, dictGet_insert_self]
              · by_cases hm : v.defect ∈ l
                · simp [DefectsGenerator.setitem, if_neg h1, he, if_neg h2, hd, hm]
                · simp [DefectsGenerator.setitem, if_neg h1, he, if_neg h2, hd, hm,
                    dictGet_insert_self]
            · intro k hk
              rcases hd : dictGet (defect_dict_key_from_pmg_type v.defect.defect_type) g.defects with _ | l
              · simp [DefectsGenerator.setitem, if_neg h1, he, if_neg h2, hd,
                  dictGet_insert_self, dictGet_insert_ne _ _ hk]
              · by_cases hm : v.defect ∈ l
                · simp [DefectsGenerator.setitem, if_neg h1, he, if_neg h2, hd, hm]
                · simp [DefectsGenerator.setitem, if_neg h1, he, if_neg h2, hd, hm,
                    dictGet_insert_ne _ _ hk]
        · -- supercell mismatch
          have h1 : ¬ v.defect.structure' ≠ g.primitive_structure := not_not_intro hs
          refine ⟨?_, ?_, ?_⟩
          · apply iff_of_true
            · simp [DefectsGenerator.setitem, if_neg h1, he, if_pos hsc]
            · exact Or.inr ⟨v, rfl, Or.inr ⟨e, he, hsc⟩⟩
          · intro _
            simp [DefectsGenerator.setitem, if_neg h1, he, if_pos hsc]
          · intro hnone
            exfalso
            simp [DefectsGenerator.setitem, if_neg h1, he, if_pos hsc] at hnone
      · -- primitive structure mismatch
        refine ⟨?_, ?_, ?_⟩
        · apply iff_of_true
          · simp [DefectsGenerator.setitem, if_pos hs]
          · exact Or.inr ⟨v, rfl, Or.inl hs⟩
        · intro _
          simp [DefectsGenerator.setitem, if_pos hs]
        · intro hnone
          exfalso
          simp [DefectsGenerator.setitem, if_pos hs] at hnone

/-- Witness for C4: assigning a non-DefectEntry value raises and leaves the
demo facade unchanged. -/
theorem C4_setitem_validation_witness :
    (DefectsGenerator.setitem demoGss demoG0 "some_key" (PyValue.other "int")).1 = demoG0 :=
  (C4_setitem_validation demoGss demoG0 "some_key" (PyValue.other "int")
    (fun _ h => PyValue.noConfusion h)).2.1 (by decide)

/-! Invariant machinery for C7: every stored entry derives from the single
stored supercell matrix. -/

/-- The entry was assembled, via the external supercell method and
get_defect_entry_from_defect, from the supercell of its own defect built
with the matrix M (its name attribute aside, which the generator rewrites). -/
def entryFromSharedMatrix (gss : Defect → SCMatrix → String → PMGStructure)
    (M : SCMatrix) (e : DefectEntry) : Prop :=
  get_defect_entry_from_defect e.defect (gss e.defect M "X") e.charge_state "X" =
    some { e with name := "" }

lemma gdefd_fields {d : Defect} {sc : PMGStructure} {c : Int} {dummy : String}
    {e : DefectEntry} (h : get_defect_entry_from_defect d sc c dummy = some e) :
    e.defect = d ∧ e.charge_state = c ∧ e.name = "" := by
  unfold get_defect_entry_from_defect at h
  split at h
  · exact Option.noConfusion h
  · injection h with h'
    subst h'
    exact ⟨rfl, rfl, rfl⟩

lemma entryFromSharedMatrix_setName (gss : Defect → SCMatrix → String → PMGStructure)
    (M : SCMatrix) (e : DefectEntry) (n : String)
    (h : entryFromSharedMatrix gss M e) :
    entryFromSharedMatrix gss M { e with name := n } :=
  h

lemma entryFromSharedMatrix_of_gdefd (gss : Defect → SCMatrix → String → PMGStructure)
    (M : SCMatrix) {d : Defect} {sc : PMGStructure} {c : Int} {de : DefectEntry}
    (hsc : sc = gss d M "X")
    (heq : get_defect_entry_from_defect d sc c "X" = some de) (n : String) :
    entryFromSharedMatrix gss M { de with name := n } := by
  obtain ⟨hd, hc, hn⟩ := gdefd_fields heq
  have key : get_defect_entry_from_defect de.defect (gss de.defect M "X") de.charge_state "X" =
      some de := by
    rw [hd, hc, ← hsc]
    exact heq
  have hself : ({ de with name := "" } : DefectEntry) = de := by
    cases de with
    | mk df cs se fc nm =>
        have h2 : nm = "" := hn
        subst h2
        rfl
  apply entryFromSharedMatrix_setName
  show get_defect_entry_from_defect de.defect (gss de.defect M "X") de.charge_state "X" =
    some { de with name := "" }
  rw [hself]
  exact key

lemma dictInsert_forall {α : Type} {P : α → Prop} (k : String) (v : α) (hv : P v) :
    ∀ (d : List (String × α)), (∀ p ∈ d, P p.2) → ∀ p ∈ dictInsert k v d, P p.2 := by
  intro d
  induction d with
  | nil =>
      intro _ p hp
      simp only [dictInsert, List.mem_singleton] at hp
      subst hp
      exact hv
  | cons q rest ih =>
      obtain ⟨k1, v1⟩ := q
      intro hd p hp
      by_cases h : k1 = k
      · simp only [dictInsert, if_pos h] at hp
        rcases List.mem_cons.mp hp with rfl | hp'
        · exact hv
        · exact hd p (List.mem_cons_of_mem _ hp')
      · simp only [dictInsert, if_neg h] at hp
        rcases List.mem_cons.mp hp with rfl | hp'
        · exact hd _ (List.mem_cons_self _ _)
        · exact ih (fun p hp => hd p (List.mem_cons_of_mem _ hp)) p hp'

lemma dictErase_forall {α : Type} {P : α → Prop} (k : String) :
    ∀ (d : List (String × α)), (∀ p ∈ d, P p.2) → ∀ p ∈ dictErase k d, P p.2 := by
  intro d
  induction d with
  | nil =>
      intro _ p hp
      simp [dictErase] at hp
  | cons q rest ih =>
      obtain ⟨k1, v1⟩ := q
      intro hd p hp
      by_cases h : k1 = k
      · simp only [dictErase, if_pos h] at hp
        exact hd p (List.mem_cons_of_mem _ hp)
      · simp only [dictErase, if_neg h] at hp
        rcases List.mem_cons.mp hp with rfl | hp'
        · exact hd _ (List.mem_cons_self _ _)
        · exact ih (fun p hp => hd p (List.mem_cons_of_mem _ hp)) p hp'

lemma foldl_renameStep_forall {P : DefectEntry → Prop}
    (hP : ∀ e n, P e → P { e with name := n }) (base : String) :
    ∀ (l : List (String × DefectEntry)) (acc : List (String × DefectEntry) × Int),
      (∀ p ∈ l, P p.2) → (∀ p ∈ acc.1, P p.2) →
      ∀ p ∈ (l.foldl (renameStep base) acc).1, P p.2 := by
  intro l
  induction l with
  | nil =>
      intro acc _ hacc
      simpa using hacc
  | cons q rest ih =>
      intro acc hl hacc
      rw [List.foldl_cons]
      apply ih
      · intro p hp
        exact hl p (List.mem_cons_of_mem _ hp)
      · unfold renameStep
        by_cases hc : strStartsWith q.1 (strDropRight base 1 ++ "_") = true
        · rw [if_pos hc]
          intro p hp
          refine dictErase_forall _ _ ?_ p hp
          exact dictInsert_forall _ _ (hP q.2 _ (hl q (List.mem_cons_self _ _))) acc.1 hacc
        · rw [if_neg hc]
          exact hacc

lemma renameLoop_forall {P : DefectEntry → Prop}
    (hP : ∀ e n, P e → P { e with name := n }) (base : String)
    (entries : List (String × DefectEntry)) (charge : Int)
    (hinv : ∀ p ∈ entries, P p.2) :
    ∀ p ∈ (renameLoop base entries charge).1, P p.2 :=
  foldl_renameStep_forall hP base entries (entries, charge) hinv hinv

lemma chargeLoop_forall (gss : Defect → SCMatrix → String → PMGStructure) (M : SCMatrix)
    (d : Defect) (sc : PMGStructure) (hsc : sc = gss d M "X") :
    ∀ (cs : List Int) (entries : List (String × DefectEntry))
      (naming : List (String × Nat)) (baseOpt : Option String)
      (out : List (String × DefectEntry) × List (String × Nat)),
      (∀ p ∈ entries, entryFromSharedMatrix gss M p.2) →
      chargeLoop d sc cs entries naming baseOpt = some out →
      ∀ p ∈ out.1, entryFromSharedMatrix gss M p.2 := by
  intro cs
  induction cs with
  | nil =>
      intro entries naming baseOpt out hinv h
      simp only [chargeLoop] at h
      injection h with h'
      subst h'
      exact hinv
  | cons charge rest ih =>
      intro entries naming baseOpt out hinv h
      simp only [chargeLoop] at h
      split at h
      · exact Option.noConfusion h
      · next de heq =>
          split at h
          · next base =>
              refine ih _ _ _ out ?_ h
              exact dictInsert_forall _ _
                (entryFromSharedMatrix_of_gdefd gss M hsc heq _) entries hinv
          · refine ih _ _ _ out ?_ h
            by_cases hb : strEndsWith
                (update_defect_dict (get_defect_name_from_obj d) naming).1 "b" = true
            · rw [if_pos hb] at h ⊢
              refine dictInsert_forall _ _
                (entryFromSharedMatrix_of_gdefd gss M hsc heq _) _ ?_
              exact renameLoop_forall (entryFromSharedMatrix_setName gss M) _ entries charge hinv
            · rw [if_neg hb] at h ⊢
              exact dictInsert_forall _ _
                (entryFromSharedMatrix_of_gdefd gss M hsc heq _) entries hinv

lemma defectLoop_forall (gss : Defect → SCMatrix → String → PMGStructure) (M : SCMatrix) :
    ∀ (ds : List Defect) (entries : List (String × DefectEntry))
      (naming : List (String × Nat))
      (out : List (String × DefectEntry) × List (String × Nat)),
      (∀ p ∈ entries, entryFromSharedMatrix gss M p.2) →
      defectLoop gss M ds entries naming = some out →
      ∀ p ∈ out.1, entryFromSharedMatrix gss M p.2 := by
  intro ds
  induction ds with
  | nil =>
      intro entries naming out hinv h
      simp only [defectLoop] at h
      injection h with h'
      subst h'
      exact hinv
  | cons d ds ih =>
      intro entries naming out hinv h
      simp only [defectLoop] at h
      split at h
      · exact Option.noConfusion h
      · next st heq =>
          exact ih st.1 st.2 out
            (chargeLoop_forall gss M d (gss d M "X") rfl _ entries naming none st hinv heq) h

lemma kindLoop_forall (gss : Defect → SCMatrix → String → PMGStructure) (M : SCMatrix) :
    ∀ (kinds : List (String × List Defect)) (entries : List (String × DefectEntry))
      (out : List (String × DefectEntry)),
      (∀ p ∈ entries, entryFromSharedMatrix gss M p.2) →
      kindLoop gss M kinds entries = some out →
      ∀ p ∈ out, entryFromSharedMatrix gss M p.2 := by
  intro kinds
  induction kinds with
  | nil =>
      intro entries out hinv h
      simp only [kindLoop] at h
      injection h with h'
      subst h'
      exact hinv
  | cons kd rest ih =>
      intro entries out hinv h
      simp only [kindLoop] at h
      split at h
      · exact Option.noConfusion h
      · next st heq =>
          exact ih st.1 out (defectLoop_forall gss M kd.2 entries [] st hinv heq) h

/-- C7: a successful construction stores the supercell matrix obtained from
the single get_sc_fromstruct call on the primitive structure, with keyword
defaults min_atoms 50, max_atoms 240, min_length 10, force_diagonal false
unless overridden, and every stored DefectEntry was assembled from the
supercell of its defect built with exactly that stored matrix. -/
theorem C7_single_shared_supercell_matrix (primFn : PMGStructure → PMGStructure)
    (enumFn : PMGStructure → List (String × List Defect))
    (getSC : PMGStructure → Nat → Nat → ℚ → Bool → SCMatrix)
    (gss : Defect → SCMatrix → String → PMGStructure)
    (structure0 : PMGStructure) (kwargs : SupercellKwargs) (g : DefectsGenerator)
    (h : DefectsGenerator.init primFn enumFn getSC gss structure0 kwargs = some g) :
    g.supercell_matrix = getSC (primFn structure0) (kwargs.min_atoms.getD 50)
      (kwargs.max_atoms.getD 240) (kwargs.min_length.getD 10)
      (kwargs.force_diagonal.getD false) ∧
    (∀ p ∈ g.defect_entries, entryFromSharedMatrix gss g.supercell_matrix p.2) := by
  simp only [DefectsGenerator.init] at h
  split at h
  · exact Option.noConfusion h
  · next entries heq =>
      injection h with h'
      subst h'
      refine ⟨rfl, ?_⟩
      exact kindLoop_forall gss _ _ [] entries (by simp) heq

/-- Witness for C7 on the demo construction. -/
theorem C7_single_shared_supercell_matrix_witness :
    gDemo.supercell_matrix = demoGetSC (demoPrimFn demoPrim) 50 240 10 false ∧
    (∀ p ∈ gDemo.defect_entries, entryFromSharedMatrix demoGss gDemo.supercell_matrix p.2) :=
  C7_single_shared_supercell_matrix demoPrimFn demoEnumFn demoGetSC demoGss demoPrim {}
    gDemo demoInit_eq

lemma map_dictGet_eq_self :
    ∀ (s e : List (String × ℚ)),
      s.map Prod.fst = e.map Prod.fst → (e.map Prod.fst).Nodup →
      s.map (fun p => (p.1, (dictGet p.1 e).getD 0)) = e := by
  intro s
  induction s with
  | nil =>
      intro e hkeys _
      cases e with
      | nil => rfl
      | cons q e' => simp at hkeys
  | cons p s' ih =>
      intro e hkeys hnd
      cases e with
      | nil => simp at hkeys
      | cons q e' =>
          obtain ⟨pk, pv⟩ := p
          obtain ⟨qk, qv⟩ := q
          simp only [List.map_cons, List.cons.injEq] at hkeys
          obtain ⟨hk1, hk2⟩ := hkeys
          subst hk1
          simp only [List.map_cons, List.nodup_cons] at hnd
          simp only [List.map_cons]
          congr 1
          · simp [dictGet]
          · have hstep : ∀ x ∈ s',
                (fun p => (p.1, (dictGet p.1 ((pk, qv) :: e')).getD 0)) x =
                (fun p => (p.1, (dictGet p.1 e').getD 0)) x := by
              intro x hx
              have hxk : pk ≠ x.1 := by
                intro hcontra
                apply hnd.1
                rw [hcontra]
                exact hk2 ▸ List.mem_map_of_mem Prod.fst hx
              simp [dictGet, hxk]
            rw [List.map_congr_left hstep]
            exact ih e' hk2 hnd.2

theorem C9_interpolate_chempots_five_points (s e : List (String × ℚ))
    (hkeys : s.map Prod.fst = e.map Prod.fst)
    (hnd : (e.map Prod.fst).Nodup)
    (hne : s ≠ e) :
    (get_interpolated_chempots s e 5).length = 5 ∧
    (get_interpolated_chempots s e 5).getD 0 [] = s ∧
    (get_interpolated_chempots s e 5).getD 4 [] = e ∧
    (get_interpolated_chempots s e 5).getD 2 [] =
      s.map (fun p => (p.1, (p.2 + (dictGet p.1 e).getD 0) / 2)) ∧
    (get_interpolated_chempots s e 5).Nodup := by
  obtain ⟨p₀, hp₀mem, hp₀ne⟩ : ∃ p ∈ s, (dictGet p.1 e).getD 0 ≠ p.2 := by
    by_contra hcon
    push_neg at hcon
    apply hne
    have hmap : ∀ x ∈ s, (fun p => (p.1, (dictGet p.1 e).getD 0)) x = (fun p => p) x := by
      intro x hx
      simp only []
      rw [hcon x hx]
    calc s = s.map (fun p => p) := (List.map_id' s).symm
      _ = s.map (fun p => (p.1, (dictGet p.1 e).getD 0)) := (List.map_congr_left hmap).symm
      _ = e := map_dictGet_eq_self s e hkeys hnd
  obtain ⟨n, hn⟩ := List.mem_iff_get.mp hp₀mem
  have hkeyfun : ∀ i j : ℕ,
      s.map (fun p => (p.1, p.2 + ((dictGet p.1 e).getD 0 - p.2) * (i : ℚ) / (((5:ℕ) : ℚ) - 1))) =
      s.map (fun p => (p.1, p.2 + ((dictGet p.1 e).getD 0 - p.2) * (j : ℚ) / (((5:ℕ) : ℚ) - 1))) →
      i = j := by
    intro i j hij
    have hlen1 : (n : ℕ) <
        (s.map (fun p => (p.1, p.2 + ((dictGet p.1 e).getD 0 - p.2) * (i : ℚ) / (((5:ℕ) : ℚ) - 1)))).length := by
      simp only [List.length_map]
      exact n.2
    have hlen2 : (n : ℕ) <
        (s.map (fun p => (p.1, p.2 + ((dictGet p.1 e).getD 0 - p.2) * (j : ℚ) / (((5:ℕ) : ℚ) - 1)))).length := by
      simp only [List.length_map]
      exact n.2
    have hpair := congrArg (fun l => l.getD (n : ℕ) (p₀.1, 0)) hij
    simp only [] at hpair
    rw [List.getD_eq_getElem _ _ hlen1, List.getD_eq_getElem _ _ hlen2,
      List.getElem_map, List.getElem_map] at hpair
    have hsn : s[(n : ℕ)] = p₀ := by
      rw [← hn]
      simp [List.get_eq_getElem]
    rw [hsn] at hpair
    have hsnd := congrArg Prod.snd hpair
    simp only [] at hsnd
    have hc := add_left_cancel hsnd
    have h4 : (((5:ℕ) : ℚ)) - 1 ≠ 0 := by norm_num
    have hc' := congrArg (fun x : ℚ => x * (((5:ℕ) : ℚ) - 1)) hc
    simp only [] at hc'
    rw [div_mul_cancel₀ _ h4, div_mul_cancel₀ _ h4] at hc'
    have hδ : (dictGet p₀.1 e).getD 0 - p₀.2 ≠ 0 := sub_ne_zero.mpr hp₀ne
    have hcast := mul_left_cancel₀ hδ hc'
    exact_mod_cast hcast
  refine ⟨?_, ?_, ?_, ?_, ?_⟩
  · simp [get_interpolated_chempots]
  · unfold get_interpolated_chempots
    rw [show List.range 5 = [0, 1, 2, 3, 4] from rfl]
    simp only [List.map_cons, List.map_nil, List.getD_cons_zero]
    have hmap : ∀ x ∈ s,
        (fun p => (p.1, p.2 + ((dictGet p.1 e).getD 0 - p.2) * ((0:ℕ) : ℚ) / (((5:ℕ) : ℚ) - 1))) x =
        (fun p => p) x := by
      intro x hx
      simp only []
      have hval : x.2 + ((dictGet x.1 e).getD 0 - x.2) * ((0:ℕ) : ℚ) / (((5:ℕ) : ℚ) - 1) = x.2 := by
        push_cast
        ring
      rw [hval]
    rw [List.map_congr_left hmap, List.map_id']
  · unfold get_interpolated_chempots
    rw [show List.range 5 = [0, 1, 2, 3, 4] from rfl]
    simp only [List.map_cons, List.map_nil, List.getD_cons_zero, List.getD_cons_succ]
    have hmap : ∀ x ∈ s,
        (fun p => (p.1, p.2 + ((dictGet p.1 e).getD 0 - p.2) * ((4:ℕ) : ℚ) / (((5:ℕ) : ℚ) - 1))) x =
        (fun p => (p.1, (dictGet p.1 e).getD 0)) x := by
      intro x hx
      simp only []
      have hval : x.2 + ((dictGet x.1 e).getD 0 - x.2) * ((4:ℕ) : ℚ) / (((5:ℕ) : ℚ) - 1) =
          (dictGet x.1 e).getD 0 := by
        push_cast
        ring
      rw [hval]
    rw [List.map_congr_left hmap]
    exact map_dictGet_eq_self s e hkeys hnd
  · unfold get_interpolated_chempots
    rw [show List.range 5 = [0, 1, 2, 3, 4] from rfl]
    simp only [List.map_cons, List.map_nil, List.getD_cons_zero, List.getD_cons_succ]
    have hmap : ∀ x ∈ s,
        (fun p => (p.1, p.2 + ((dictGet p.1 e).getD 0 - p.2) * ((2:ℕ) : ℚ) / (((5:ℕ) : ℚ) - 1))) x =
        (fun p => (p.1, (p.2 + (dictGet p.1 e).getD 0) / 2)) x := by
      intro x hx
      simp only []
      have hval : x.2 + ((dictGet x.1 e).getD 0 - x.2) * ((2:ℕ) : ℚ) / (((5:ℕ) : ℚ) - 1) =
          (x.2 + (dictGet x.1 e).getD 0) / 2 := by
        push_cast
        ring
      rw [hval]
    rw [List.map_congr_left hmap]
  · unfold get_interpolated_chempots
    refine List.Nodup.map_on ?_ (List.nodup_range 5)
    intro i _ j _ hij
    exact hkeyfun i j hij

/-- Chemical-potential start point used by the interpolation witness. -/
def demoChempotStart : List (String × ℚ) := [("Cd", -1), ("Te", -2)]

/-- Chemical-potential end point used by the interpolation witness. -/
def demoChempotEnd : List (String × ℚ) := [("Cd", -2), ("Te", -1)]

/-- Witness for C9 on the two concrete chemical-potential dicts of the test
suite. -/
theorem C9_interpolate_chempots_five_points_witness :
    (get_interpolated_chempots demoChempotStart demoChempotEnd 5).length = 5 ∧
    (get_interpolated_chempots demoChempotStart demoChempotEnd 5).getD 0 [] = demoChempotStart ∧
    (get_interpolated_chempots demoChempotStart demoChempotEnd 5).getD 4 [] = demoChempotEnd ∧
    (get_interpolated_chempots demoChempotStart demoChempotEnd 5).getD 2 [] =
      demoChempotStart.map (fun p => (p.1, (p.2 + (dictGet p.1 demoChempotEnd).getD 0) / 2)) ∧
    (get_interpolated_chempots demoChempotStart demoChempotEnd 5).Nodup :=
  C9_interpolate_chempots_five_points demoChempotStart demoChempotEnd
    (by decide) (by decide) (by decide)
